import Mathlib

/-
  Verification development for the real-time log-tail viewer client
  (the self-contained script in src/unnamed/part_000).

  The JavaScript source is shallowly embedded: strings are Lean String /
  List Char, JS numbers used here are Nat/Int, nullable values are Option,
  the DOM table is a list of row records, and the WebSocket/poll transport
  is a small labelled transition system over an explicit state record.
  Host primitives (Date parsing, the RegExp engine) are modelled explicitly
  where noted.
-/

namespace LogTail

/-- Global single-character replacement, the semantics of JS
`s.replace(/c/g, t)` for a single character `c` and a replacement `t`
containing no `$` pattern. -/
def replaceChar (c : Char) (t : List Char) : List Char → List Char
  | [] => []
  | x :: xs => (if x = c then t else [x]) ++ replaceChar c t xs

/-- Replacement text for the ampersand pass of escapeHtml. -/
def ampRepl : List Char := ['&', 'a', 'm', 'p', ';']

/-- Replacement text for the less-than pass of escapeHtml. -/
def ltRepl : List Char := ['&', 'l', 't', ';']

/-- Replacement text for the greater-than pass of escapeHtml. -/
def gtRepl : List Char := ['&', 'g', 't', ';']

/-- Embeds `escapeHtml` (part_000 line 21):
`(s||'').replace(/&/g,'&amp;').replace(/</g,'&lt;').replace(/>/g,'&gt;')`.
A null/undefined argument behaves as the empty string (the `s||''`). -/
def escapeHtml (s : Option String) : String :=
  String.mk (replaceChar '>' gtRepl
    (replaceChar '<' ltRepl
      (replaceChar '&' ampRepl (s.getD "").toList)))

/-- Does `p` occur at the start of `l`? (exact character match) -/
def startsSeg : List Char → List Char → Bool
  | [], _ => true
  | _ :: _, [] => false
  | p :: ps, c :: cs => p = c && startsSeg ps cs

/-- Does `p` occur as a contiguous segment of `l`? This is the semantics of
JS `l.indexOf(p) !== -1` for strings. -/
def segIn (p : List Char) : List Char → Bool
  | [] => p.isEmpty
  | c :: cs => startsSeg p (c :: cs) || segIn p cs

/-- The character class actually written in the source's keyword-escaping
regex (part_000 line 23): `[.*+?^${}()|[\\]` — the class is terminated by
the first unescaped `]`, so it contains the twelve specials and the
backslash, and the `]` that the author presumably intended to be inside the
class instead closes it. -/
def regexSpecials : List Char :=
  ['.', '*', '+', '?', '^', '$', '\x7b', '\x7d', '(', ')', '|', '[', '\\']

/-- Embeds the keyword-escaping step of `highlightText`:
`(kw+'').replace(/[.*+?^${}()|[\\]\\]/g,'\\$&')`. Because the character
class closes at the first unescaped `]`, the pattern matches a
three-character group: one character from `regexSpecials`, then a literal
backslash, then a literal `]`; each match is replaced by a backslash
followed by the whole match. Left-to-right, non-overlapping, global. -/
def jsEscapeKwF : Nat → List Char → List Char
  | _, [] => []
  | 0, s => s
  | f + 1, c1 :: rest =>
    match rest with
    | '\\' :: ']' :: rest2 =>
      if c1 ∈ regexSpecials then
        '\\' :: c1 :: '\\' :: ']' :: jsEscapeKwF f rest2
      else c1 :: jsEscapeKwF f rest
    | _ => c1 :: jsEscapeKwF f rest

/-- Fuel instantiation of `jsEscapeKwF`; one unit of fuel per input
character always suffices. -/
def jsEscapeKw (s : List Char) : List Char := jsEscapeKwF s.length s

/-- One atom of the modelled regular-expression subset: a literal character
or the `.` wildcard. -/
inductive RAtom
  | dot
  | lit (c : Char)
deriving DecidableEq

/-- Metacharacters that are not part of the modelled subset when they occur
unescaped in a pattern. -/
def regexMeta : List Char :=
  ['(', ')', '[', ']', '\x7b', '\x7d', '*', '+', '?', '|', '^', '$']

/-- Modelled from the host: parsing of the pattern body handed to
`new RegExp('('+esc+')','gi')`. The model covers patterns that are
sequences of literal characters, backslash-escaped characters, and the `.`
wildcard; any other unescaped metacharacter, and a trailing backslash, are
treated as construction failure (`none`). This is exact for the inputs
evaluated in this development (for instance the unescaped `(` produced by
keyword "(" genuinely makes the JS RegExp constructor throw, and a trailing
backslash does too); richer constructs such as alternation or class
escapes are conservatively mapped to failure and never evaluated. -/
def parseAtoms : List Char → Option (List RAtom)
  | [] => some []
  | '\\' :: c :: rest => (parseAtoms rest).map (fun as => RAtom.lit c :: as)
  | '\\' :: [] => none
  | '.' :: rest => (parseAtoms rest).map (fun as => RAtom.dot :: as)
  | c :: rest =>
    if c ∈ regexMeta then none
    else (parseAtoms rest).map (fun as => RAtom.lit c :: as)

/-- JS line terminators, which `.` does not match. -/
def lineTerms : List Char := ['\n', '\r', '\u2028', '\u2029']

/-- Does one atom match one character, under the `i` flag (modelled as
lower-case folding, exact for ASCII)? -/
def atomMatches : RAtom → Char → Bool
  | RAtom.dot, c => !(lineTerms.contains c)
  | RAtom.lit l, c => l.toLower = c.toLower

/-- Match a sequence of atoms against a prefix of `s`; on success return
the matched prefix and the remaining suffix. -/
def atomsMatch : List RAtom → List Char → Option (List Char × List Char)
  | [], s => some ([], s)
  | _ :: _, [] => none
  | a :: as, c :: cs =>
    if atomMatches a c then
      (atomsMatch as cs).map (fun p => (c :: p.1, p.2))
    else none

/-- Opening highlight marker inserted by `highlightText`'s replacement
string. -/
def markO : List Char := ("<mark class=\"log-highlight\">").toList

/-- Closing highlight marker inserted by `highlightText`'s replacement
string. -/
def markC : List Char := ("</mark>").toList

/-- Global replace semantics of
`escaped.replace(re, '<mark class="log-highlight">$1</mark>')` for a
compiled nonempty atom sequence `a :: as`: scan left to right; at each
position wrap the leftmost match in the markers and continue after it,
otherwise keep the character. `fuel` bounds the recursion; it is always
called with `fuel = s.length`, which suffices because every match consumes
at least one character. -/
def gReplaceF (a : RAtom) (as : List RAtom) : Nat → List Char → List Char
  | _, [] => []
  | 0, s => s
  | fuel + 1, c :: cs =>
    match atomsMatch (a :: as) (c :: cs) with
    | some (m, r) => markO ++ m ++ markC ++ gReplaceF a as fuel r
    | none => c :: gReplaceF a as fuel cs

/-- Embeds `highlightText` (part_000 line 23). An empty (falsy) keyword
returns the escaped text unchanged; otherwise the keyword is passed through
the (broken) escaping step `jsEscapeKw`, the resulting pattern is compiled
(`parseAtoms`, `none` representing the RegExp constructor throwing, which
the source catches by returning the escaped text), and on success the
escaped text has every leftmost non-overlapping case-insensitive match
wrapped in the highlight markers. A null/undefined `text` is handled by
`escapeHtml`'s `(s||'')`. -/
def highlightText (text : Option String) (kw : String) : String :=
  if kw = "" then escapeHtml text
  else
    match parseAtoms (jsEscapeKw kw.toList) with
    | none => escapeHtml text
    | some [] => escapeHtml text
    | some (a :: as) =>
      let e := (escapeHtml text).toList
      String.mk (gReplaceF a as e.length e)

/-- JS `toLowerCase`, modelled per code point (exact for ASCII). Defined
on the character list so that it reduces in the kernel. -/
def lowerS (s : String) : String := String.mk (s.toList.map Char.toLower)

/-- JS `toUpperCase`, modelled per code point (exact for ASCII). -/
def upperS (s : String) : String := String.mk (s.toList.map Char.toUpper)

/-- Replace the first occurrence of `T` by a space — JS
`tsStr.replace('T',' ')` with a string pattern replaces only the first
occurrence. -/
def replFirstT : List Char → List Char
  | [] => []
  | 'T' :: r => ' ' :: r
  | c :: r => c :: replFirstT r

/-- Embeds `parseTsMs` (part_000 line 84). The host `new Date(s)` parser is
abstracted as the parameter `dparse`, with `none` standing for an invalid
date / NaN result; the source's own logic (falsy input gives NaN, first `T`
replaced by a space before parsing) is embedded here. -/
def parseTsMs (dparse : String → Option Int) (tsStr : String) : Option Int :=
  if tsStr = "" then none
  else dparse (String.mk (replFirstT tsStr.toList))

/-- JS string disjunction `a || b` on strings: the empty string is falsy. -/
def jsOr (a b : String) : String := if a = "" then b else a

/-- Substring test, the semantics of JS `s.indexOf(pat) !== -1`. -/
def strIn (pat s : String) : Bool := segIn pat.toList s.toList

/-- One rendered table row: the three raw dataset values
(`row.dataset.rawTs/rawLevel/rawMsg`), the rendered cell contents (the
HTML character data placed in the three `td`s; static markup such as class
attributes carries no record content and is elided), and the visibility
flag (`row.style.display` empty vs `'none'`, `true` = visible). -/
structure Row where
  rawTs : String
  rawLevel : String
  rawMsg : String
  tsCell : String
  levelCell : String
  msgCell : String
  display : Bool
deriving DecidableEq

/-- The table-wide DOM state touched by the viewer: the row list (top of
the table first), the `totalLogs` counter, the `lastUpdate` text (`none`
for the empty string) and the disabled flags of the pause/resume
buttons. -/
structure TableSt where
  rows : List Row
  total : Nat
  lastUpdate : Option String
  pauseDisabled : Bool
  resumeDisabled : Bool
deriving DecidableEq

/-- Embeds `clearLogTable` (part_000 lines 50-57): empties the table body,
sets the total counter to 0 and the last-update text to empty, enables the
pause button and disables the resume button. Note that it does not touch
the module-level `isPaused` variable. -/
def clearLogTable (_st : TableSt) : TableSt :=
  { rows := [], total := 0, lastUpdate := none,
    pauseDisabled := false, resumeDisabled := true }

/-- The filter fields read by `applyFilter` and `addLogEntry`: the current
keyword, the header (message-only) search, the selected level set (a JS
`Set` of exact strings, modelled as a list), and the raw values of the
`startTs`/`endTs` datetime inputs (empty string = absent). -/
structure FilterSt where
  currentKeyword : String
  headerSearch : String
  selectedLevels : List String
  startInput : String
  endInput : String
deriving DecidableEq

/-- One wire log record `{ts, level, msg|message}`; `none` models an absent
(undefined) property. -/
structure LogRec where
  ts : Option String
  level : Option String
  msg : Option String
  message : Option String
deriving DecidableEq

/-- Row construction part of `addLogEntry` (part_000 lines 164-193): the
level is uppercased, the timestamp falls back to the current locale time
string `now` when absent or empty, the message is `msg || message || ''`;
the three raw values are attached as dataset metadata; the cells render the
escaped timestamp, the escaped level and the escaped-and-highlighted
message; visibility applies only the keyword and level predicates at
insertion time. -/
def mkRow (fs : FilterSt) (now : String) (d : LogRec) : Row :=
  let level := upperS (d.level.getD "")
  let ts := jsOr (d.ts.getD "") now
  let msgRaw := jsOr (d.msg.getD "") (d.message.getD "")
  let kw := lowerS fs.currentKeyword
  let combined := lowerS (ts ++ " " ++ level ++ " " ++ msgRaw)
  let kwMatched := kw = "" || strIn kw combined
  let levelMatched := fs.selectedLevels.isEmpty || fs.selectedLevels.contains level
  { rawTs := ts, rawLevel := level, rawMsg := msgRaw,
    tsCell := escapeHtml (some ts),
    levelCell := escapeHtml (some level),
    msgCell := highlightText (some msgRaw) fs.currentKeyword,
    display := kwMatched && levelMatched }

/-- Embeds `addLogEntry` (part_000 lines 164-194): prepends the new row to
the table body (`insertBefore(row, tbody.firstChild)`), increments the
total counter and sets the last-update text; the pause/resume buttons are
untouched. -/
def addLogEntry (fs : FilterSt) (now : String) (st : TableSt) (d : LogRec) : TableSt :=
  { st with rows := mkRow fs now d :: st.rows,
            total := st.total + 1,
            lastUpdate := some now }

/-- A parsed WebSocket frame (`JSON.parse(ev.data)` succeeded and produced
an object with a `type` field). -/
structure WsFrame where
  ftype : String
  dat : LogRec
deriving DecidableEq

/-- Viewer state relevant to pause semantics: the module-level `isPaused`
flag plus the table state. -/
structure ViewerSt where
  isPaused : Bool
  table : TableSt
deriving DecidableEq

/-- Embeds `websocket.onmessage` (part_000 line 75): when paused, the frame
is discarded without touching any state; otherwise an unparsable frame
(`none`) is discarded, and only frames with `type === 'line'` are rendered
through `addLogEntry`. -/
def onWsMessage (fs : FilterSt) (now : String) (v : ViewerSt)
    (frame : Option WsFrame) : ViewerSt :=
  if v.isPaused then v
  else
    match frame with
    | none => v
    | some f =>
      if f.ftype = "line" then { v with table := addLogEntry fs now v.table f.dat }
      else v

/-- Embeds the HTTP response continuation of `_sendReloadRequest`
(part_000 lines 218-221): a non-ok status or network error lands in the
`.catch` which only logs (`Except.error`); a successful JSON body that is
not an array clears the table and renders nothing (`Except.ok none`); an
array clears the table and renders each entry in array order via
`addLogEntry`. -/
def handleFetchTail (fs : FilterSt) (now : String) (st : TableSt)
    (resp : Except Unit (Option (List LogRec))) : TableSt :=
  match resp with
  | Except.error _ => st
  | Except.ok none => clearLogTable st
  | Except.ok (some data) =>
    data.foldl (fun acc d => addLogEntry fs now acc d) (clearLogTable st)

/-- Keyword predicate of `applyFilter` (part_000 lines 152-153):
case-insensitive substring of the lowered keyword over the
timestamp-level-message concatenation. -/
def kwMatchB (fs : FilterSt) (r : Row) : Bool :=
  let kw := lowerS fs.currentKeyword
  let combined := r.rawTs ++ " " ++ upperS r.rawLevel ++ " " ++ r.rawMsg
  kw = "" || strIn kw (lowerS combined)

/-- Level predicate of `applyFilter` (part_000 line 154): pass when the
selected set is empty, otherwise exact membership of the uppercased row
level. -/
def levelMatchB (fs : FilterSt) (r : Row) : Bool :=
  !(decide (fs.selectedLevels.length > 0)) ||
    fs.selectedLevels.contains (upperS r.rawLevel)

/-- Value of a datetime bound input: absent (empty) gives `null`, otherwise
the host-parsed milliseconds with NaN folded into `none`. -/
def boundVal (dparse : String → Option Int) (input : String) : Option Int :=
  if input = "" then none else dparse input

/-- Timestamp-range predicate of `applyFilter` (part_000 line 155): each
bound passes when absent or unparsable; a present parsable bound compares
against the row's parsed timestamp, and a row whose own timestamp is NaN
fails such a comparison (`NaN >= v` is false). -/
def tsMatchB (dparse : String → Option Int) (fs : FilterSt) (r : Row) : Bool :=
  let tsMs := parseTsMs dparse r.rawTs
  (match boundVal dparse fs.startInput with
   | none => true
   | some sv => match tsMs with | none => false | some t => sv ≤ t) &&
  (match boundVal dparse fs.endInput with
   | none => true
   | some ev => match tsMs with | none => false | some t => t ≤ ev)

/-- Header (message-only) predicate of `applyFilter` (part_000 line 158):
case-insensitive substring over the raw message only. -/
def headerMatchB (fs : FilterSt) (r : Row) : Bool :=
  let hs := lowerS fs.headerSearch
  hs = "" || strIn hs (lowerS r.rawMsg)

/-- Conjunction of the four `applyFilter` predicates (part_000 line 159):
a row is displayed iff all four pass. -/
def visRowB (dparse : String → Option Int) (fs : FilterSt) (r : Row) : Bool :=
  kwMatchB fs r && levelMatchB fs r && tsMatchB dparse fs r && headerMatchB fs r

/-- Per-row body of `applyFilter`'s forEach (part_000 lines 147-159):
re-render the message cell with the current keyword and set the row's
visibility to the four-predicate conjunction. The raw dataset values are
not modified. -/
def updRow (dparse : String → Option Int) (fs : FilterSt) (r : Row) : Row :=
  { r with msgCell := highlightText (some r.rawMsg) fs.currentKeyword,
           display := visRowB dparse fs r }

/-- The three sortable columns of `sortTable`. -/
inductive SortCol
  | ts
  | level
  | msg
deriving DecidableEq

/-- Fixed level priority map of `sortTable` (part_000 line 101), with 0 for
unrecognized or missing levels. -/
def levelPri (s : String) : Int :=
  if s = "ERROR" then 4
  else if s = "WARNING" then 3
  else if s = "INFO" then 2
  else if s = "DEBUG" then 1
  else 0

/-- Code-unit lexicographic strict order on character lists, the semantics
of JS `<` on strings. -/
def lexLt : List Char → List Char → Bool
  | [], [] => false
  | [], _ :: _ => true
  | _ :: _, [] => false
  | a :: as, b :: bs => if a < b then true else if b < a then false else lexLt as bs

/-- The row comparator of `sortTable` (part_000 lines 99-103), composed
with the ECMAScript `SortCompare` rule that a NaN comparator result is
treated as +0: on the timestamp column an unparsable timestamp makes
`(ta - tb) * dir` NaN, hence the 0 branch. -/
def rowCompare (dparse : String → Option Int) (col : SortCol) (dir : Int)
    (a b : Row) : Int :=
  match col with
  | SortCol.ts =>
    match parseTsMs dparse a.rawTs, parseTsMs dparse b.rawTs with
    | some x, some y => (x - y) * dir
    | _, _ => 0
  | SortCol.level =>
    (levelPri (upperS a.rawLevel) - levelPri (upperS b.rawLevel)) * dir
  | SortCol.msg =>
    if lexLt (lowerS a.rawMsg).toList (lowerS b.rawMsg).toList then (-1) * dir
    else if lexLt (lowerS b.rawMsg).toList (lowerS a.rawMsg).toList then 1 * dir
    else 0

/-- Embeds the reordering done by `Array.prototype.sort` with the
`sortTable` comparator. ECMAScript requires the sort to be stable;
insertion sort realizes that: elements whose comparison is 0 keep their
relative order. -/
def sortRows (dparse : String → Option Int) (col : SortCol) (dir : Int)
    (rows : List Row) : List Row :=
  List.insertionSort (fun a b => rowCompare dparse col dir a b ≤ 0) rows

/-- The sort state: active column (or none) and current direction
(1 ascending, -1 descending). -/
structure SortSt where
  col : Option SortCol
  dir : Int
deriving DecidableEq

/-- Embeds `applyFilter` (part_000 lines 140-162): every row gets the
per-row update (highlight re-render and four-predicate visibility), then —
when a sort column is active — the trailing `sortTable(sortColumn)` call
runs; called with the active column and no forced direction it flips the
stored direction and re-sorts. -/
def applyFilterFull (dparse : String → Option Int) (fs : FilterSt)
    (ss : SortSt) (rows : List Row) : List Row × SortSt :=
  let rows2 := rows.map (updRow dparse fs)
  match ss.col with
  | none => (rows2, ss)
  | some c =>
    let dir := -ss.dir
    (sortRows dparse c dir rows2, { col := some c, dir := dir })

/-- Lifecycle phase of one WebSocket object. -/
inductive Phase
  | connecting
  | opened
  | closed
deriving DecidableEq

/-- One WebSocket object created by the controller: its phase, whether
`close()` has been called on it, and whether its close event has already
been delivered (a socket fires its close event at most once). -/
structure Sock where
  phase : Phase
  closeReq : Bool
  closeFired : Bool
deriving DecidableEq

/-- The module-level transport state of part_000: the list of all sockets
ever created (the `websocket` variable holds an index into it or null),
the `pollTimer` variable (non-null flag), the number of interval timers
actually live in the host (to check that timers are never leaked), the
reconnect counter, the number of scheduled-but-not-yet-fired reconnect
timeouts, and the two checkboxes read live by the handlers. -/
structure St where
  socks : List Sock
  wsVar : Option Nat
  pollTimer : Bool
  timerCount : Nat
  reconnectAttempts : Nat
  pendingReconnects : Nat
  autoPoll : Bool
  autoReconnect : Bool
deriving DecidableEq

/-- Embeds `_stopPoll` (part_000 line 59): clear the interval if one is
tracked. -/
def stopPoll (s : St) : St :=
  if s.pollTimer then { s with pollTimer := false, timerCount := s.timerCount - 1 }
  else s

/-- Start the poll interval (`pollTimer = setInterval(...)`). -/
def startPoll (s : St) : St :=
  { s with pollTimer := true, timerCount := s.timerCount + 1 }

/-- Embeds `_restartPollIfNeeded` (part_000 line 60): stop, then start a
new interval only when the websocket variable is null and auto-poll is
checked. -/
def restartPoll (s : St) : St :=
  let s1 := stopPoll s
  if s1.wsVar.isNone && s1.autoPoll then startPoll s1 else s1

/-- Arithmetic of `_scheduleReconnect` (part_000 line 81): with the counter
already at the cap (6) nothing is scheduled; otherwise the counter is
incremented first and the setTimeout delay is
`Math.min(30000, 500 * Math.pow(2, reconnectAttempts))` with the new
counter value. -/
def scheduleReconnect (attempts : Nat) : Option (Nat × Nat) :=
  if attempts ≥ 6 then none
  else some (attempts + 1, min 30000 (500 * 2 ^ (attempts + 1)))

/-- Effect of `_scheduleReconnect` on the transport state: update the
counter and record one more pending reconnect timeout. -/
def schedIn (s : St) : St :=
  match scheduleReconnect s.reconnectAttempts with
  | none => s
  | some (a, _) =>
    { s with reconnectAttempts := a, pendingReconnects := s.pendingReconnects + 1 }

/-- Embeds `connectWebSocket` (part_000 lines 62-79): a no-op when the
websocket variable is non-null; otherwise a new socket object is created
and assigned (ctorOk true), or the constructor throws (ctorOk false) and
the catch schedules a reconnect when auto-reconnect is checked. The
`clearLogTable()` call and status-DOM writes touch only table/UI state,
which lives outside this record. -/
def doConnect (ctorOk : Bool) (s : St) : St :=
  if s.wsVar.isSome then s
  else if ctorOk then
    { s with
      socks := s.socks ++
        [{ phase := Phase.connecting, closeReq := false, closeFired := false }],
      wsVar := some s.socks.length }
  else if s.autoReconnect then schedIn s
  else s

/-- The event alphabet of the transport model: user connect/disconnect
clicks, per-socket open and close event deliveries, the auto-poll toggle
and poll-interval change handlers, flipping the auto-reconnect checkbox
(which has no handler in the source), and the firing of a scheduled
reconnect timeout (which runs `connectWebSocket(false)`). -/
inductive Ev
  | userConnect (ctorOk : Bool)
  | sockOpen (i : Nat)
  | sockClose (i : Nat)
  | userDisconnect
  | setAutoPoll (b : Bool)
  | pollIntervalChange
  | setAutoReconnect (b : Bool)
  | reconnectFire (ctorOk : Bool)
deriving DecidableEq

/-- Socket lookup by index. -/
def getSock (s : St) (i : Nat) : Option Sock := s.socks.get? i

/-- Socket replacement by index. -/
def setSock (s : St) (i : Nat) (k : Sock) : St := { s with socks := s.socks.set i k }

/-- The trailing `if(el('autoReconnect') && el('autoReconnect').checked)
_scheduleReconnect();` of the `onclose` handler. -/
def schedIfAuto (s : St) : St := if s.autoReconnect then schedIn s else s

/-- Body of the `onopen` handler (part_000 lines 68-74) for socket `i`
with current record `k`: zero the attempt counter, mark the socket open,
stop polling. The host delivers an open event only to a connecting socket
whose close was not requested; an event that violates the guard is not
deliverable and leaves the state unchanged. -/
def onOpenEv (s : St) (i : Nat) (k : Sock) : St :=
  if k.phase == Phase.connecting && !k.closeReq then
    stopPoll { setSock s i { k with phase := Phase.opened } with reconnectAttempts := 0 }
  else s

/-- Body of the `onclose` handler (part_000 line 76) for socket `i` with
record `k`: the handler runs once per socket (guard on `closeFired`) and —
regardless of whether this socket is still the one held by the `websocket`
variable — unconditionally nulls the variable, restarts polling if needed,
and schedules a reconnect when the auto-reconnect checkbox is checked. -/
def onCloseEv (s : St) (i : Nat) (k : Sock) : St :=
  if !k.closeFired then
    schedIfAuto (restartPoll
      { setSock s i { k with phase := Phase.closed, closeFired := true } with
        wsVar := none })
  else s

/-- Body of `disconnectWebSocket` (part_000 line 82) when the variable
holds socket `i`: request the close and null the variable. -/
def onDisconnectEv (s : St) (i : Nat) : St :=
  match getSock s i with
  | some k => { setSock s i { k with closeReq := true } with wsVar := none }
  | none => { s with wsVar := none }

/-- One atomic browser event. Guards encode when the host can deliver the
event: an open event fires only on a connecting socket that has not been
asked to close; a close event fires exactly once per socket (whether the
close was requested by `disconnectWebSocket`, by a file switch, or by the
server) and may be delivered late, after newer sockets were created. -/
def stepEv (e : Ev) (s : St) : St :=
  match e with
  | Ev.userConnect ok => doConnect ok s
  | Ev.sockOpen i =>
    match getSock s i with
    | some k => onOpenEv s i k
    | none => s
  | Ev.sockClose i =>
    match getSock s i with
    | some k => onCloseEv s i k
    | none => s
  | Ev.userDisconnect =>
    match s.wsVar with
    | some i => onDisconnectEv s i
    | none => s
  | Ev.setAutoPoll b => restartPoll { s with autoPoll := b }
  | Ev.pollIntervalChange => restartPoll s
  | Ev.setAutoReconnect b => { s with autoReconnect := b }
  | Ev.reconnectFire ok =>
    if s.pendingReconnects > 0 then
      doConnect ok { s with pendingReconnects := s.pendingReconnects - 1 }
    else s

/-- Initial transport state of a page session after the init handler
(part_000 lines 224-304): no socket, and — per line 301 — a poll interval
already running when the auto-poll checkbox is restored as checked. -/
def initSt (ap ar : Bool) : St :=
  { socks := [], wsVar := none, pollTimer := ap,
    timerCount := if ap then 1 else 0,
    reconnectAttempts := 0, pendingReconnects := 0,
    autoPoll := ap, autoReconnect := ar }

/-- Run a sequence of events. -/
def run (evs : List Ev) (s : St) : St := evs.foldl (fun a e => stepEv e a) s

/-- Does the `websocket` variable currently hold a socket whose open event
has fired and whose close has not? -/
def trackedOpenB (s : St) : Bool :=
  match s.wsVar with
  | none => false
  | some i =>
    match getSock s i with
    | some k => k.phase == Phase.opened
    | none => false

/-- Is any socket — tracked by the `websocket` variable or orphaned — open
right now? An orphaned open socket still delivers `onmessage` lines to the
table. -/
def anyOpenB (s : St) : Bool :=
  s.socks.any (fun k => k.phase == Phase.opened)

/-- The delays of `k` consecutive automatically scheduled reconnect
attempts starting from attempt counter `a`, each attempt failing. -/
def consecFailDelays : Nat → Nat → List Nat
  | _, 0 => []
  | a, k + 1 =>
    match scheduleReconnect a with
    | none => []
    | some (a2, d) => d :: consecFailDelays a2 k

/-- Markup-safety characterization: a character list satisfying `SafeOut`
is an interleaving of non-angle characters and marker-wrapped non-angle
segments, so every `<` or `>` it contains belongs to one of the literal
marker strings inserted by the replacement, never to record content. -/
inductive SafeOut : List Char → Prop
  | nil : SafeOut []
  | plain {c : Char} {rest : List Char} :
      c ≠ '<' → c ≠ '>' → SafeOut rest → SafeOut (c :: rest)
  | wrapped {m rest : List Char} :
      (∀ x ∈ m, x ≠ '<' ∧ x ≠ '>') → SafeOut rest →
      SafeOut (markO ++ m ++ markC ++ rest)

/-- Effect of `clearLogTable` at the viewer level: the table is cleared but
the module-level `isPaused` variable is not assigned anywhere in
`clearLogTable`. -/
def clearViewer (v : ViewerSt) : ViewerSt := { v with table := clearLogTable v.table }

/-- Strengthened transport invariant: the number of live interval timers
matches the `pollTimer` variable, and whenever a poll interval is active
the socket tracked by the `websocket` variable (if any) is not open. -/
def SInv (s : St) : Prop :=
  s.timerCount = (if s.pollTimer then 1 else 0) ∧
  (s.pollTimer = true → trackedOpenB s = false)

/-- Empty filter state (no keyword, no level restriction, no bounds). -/
def fsNoFilter : FilterSt :=
  { currentKeyword := "", headerSearch := "", selectedLevels := [],
    startInput := "", endInput := "" }

/-- Filter state of the spec's end-to-end scenario: keyword "disk" and
selected level set consisting of ERROR. -/
def fsDisk : FilterSt :=
  { currentKeyword := "disk", headerSearch := "", selectedLevels := ["ERROR"],
    startInput := "", endInput := "" }

/-- Date-parse oracle for contexts in which no timestamp is ever parsed. -/
def dpNone : String → Option Int := fun _ => none

/-- Modelled from the host: a concrete behaviour of `new Date(s)` at the
strings used by the concrete sort inputs below — the well-formed timestamp
parses to some epoch value (the exact number is irrelevant to the
properties proved, only parse success matters) and everything else is an
Invalid Date (NaN). -/
def dpFix : String → Option Int :=
  fun s => if s = "2024-01-01 10:00:00" then some 1704103200000 else none

/-- A rendered row whose stored timestamp does not parse. -/
def rowTsBad : Row :=
  { rawTs := "zzz", rawLevel := "INFO", rawMsg := "a",
    tsCell := "", levelCell := "", msgCell := "", display := true }

/-- A rendered row with a parsable timestamp. -/
def rowTsGood : Row :=
  { rawTs := "2024-01-01 10:00:00", rawLevel := "ERROR", rawMsg := "disk full",
    tsCell := "", levelCell := "", msgCell := "", display := true }

/-- Second row of the spec's filter-conjunction scenario. -/
def rowOk : Row :=
  { rawTs := "2024-01-01 11:00:00", rawLevel := "INFO", rawMsg := "ok",
    tsCell := "", levelCell := "", msgCell := "", display := true }

/-- Sort state with no active column. -/
def ssNone : SortSt := { col := none, dir := -1 }

/-- A wire record whose level arrives in lower case. -/
def recLevelLower : LogRec :=
  { ts := some "2024-01-01 10:00:00", level := some "error",
    msg := some "disk full", message := none }

/-- A wire record whose message contains the three HTML-significant
characters. -/
def recAngles : LogRec :=
  { ts := some "2024-01-01 10:00:00", level := some "ERROR",
    msg := some "a<b>&c", message := none }

/-- A viewer that has one rendered row and is currently paused (pause
button disabled, resume enabled, `isPaused` set). -/
def pausedViewer : ViewerSt :=
  { isPaused := true,
    table := { rows := [rowTsGood], total := 1, lastUpdate := some "x",
               pauseDisabled := true, resumeDisabled := false } }

/-- A well-formed line frame. -/
def lineFrame : WsFrame :=
  { ftype := "line",
    dat := { ts := some "t", level := some "INFO", msg := some "hello",
             message := none } }

/-- Event trace for the mutual-exclusivity counterexample: connect and
open socket 0, user-disconnect (its close is now pending), connect and
open socket 1, and only then socket 0's delayed close event arrives. -/
def traceStaleClose : List Ev :=
  [Ev.userConnect true, Ev.sockOpen 0, Ev.userDisconnect,
   Ev.userConnect true, Ev.sockOpen 1, Ev.sockClose 0]

/-- Event trace for the user-disconnect claim: connect and open socket 0,
user clicks disconnect, the socket's close event fires. -/
def traceUserDisconnect : List Ev :=
  [Ev.userConnect true, Ev.sockOpen 0, Ev.userDisconnect, Ev.sockClose 0]

/-- A transport state with a nonzero attempt counter and one connecting
socket, used to witness the only-open-resets-the-counter property. -/
def stAttemptsThree : St :=
  { socks := [{ phase := Phase.connecting, closeReq := false, closeFired := false }],
    wsVar := some 0, pollTimer := false, timerCount := 0,
    reconnectAttempts := 3, pendingReconnects := 0,
    autoPoll := false, autoReconnect := false }

/-- The character being globally replaced does not occur in the output
when it does not occur in the replacement text. -/
theorem replaceChar_self (c : Char) (t : List Char) (hc : c ∉ t) :
    ∀ l : List Char, c ∉ replaceChar c t l := by
  intro l
  induction l with
  | nil => simp [replaceChar]
  | cons x xs ih =>
    by_cases hx : x = c
    · simp [replaceChar, hx, List.mem_append, hc, ih]
    · simp only [replaceChar, if_neg hx, List.mem_append, List.mem_singleton]
      rintro (rfl | h)
      · exact hx rfl
      · exact ih h

/-- Every character of a global replacement's output comes from the
replacement text or from the input. -/
theorem replaceChar_mem {x c : Char} {t : List Char} {l : List Char}
    (h : x ∈ replaceChar c t l) : x ∈ t ∨ x ∈ l := by
  induction l with
  | nil => simp [replaceChar] at h
  | cons y ys ih =>
    simp only [replaceChar, List.mem_append] at h
    rcases h with h | h
    · split at h
      · exact Or.inl h
      · simp only [List.mem_singleton] at h
        exact Or.inr (by simp [h])
    · rcases ih h with h2 | h2
      · exact Or.inl h2
      · exact Or.inr (List.mem_cons_of_mem _ h2)

/-- The output of `escapeHtml` contains no literal `<` or `>`. -/
theorem escapeHtml_noAngle (s : Option String) :
    ∀ x ∈ (escapeHtml s).toList, x ≠ '<' ∧ x ≠ '>' := by
  intro x hx
  have hlist : (escapeHtml s).toList =
      replaceChar '>' gtRepl
        (replaceChar '<' ltRepl (replaceChar '&' ampRepl (s.getD "").toList)) := rfl
  rw [hlist] at hx
  refine ⟨?_, ?_⟩
  · rintro rfl
    rcases replaceChar_mem hx with h | h
    · simp [gtRepl] at h
    · exact replaceChar_self '<' ltRepl (by simp [ltRepl]) _ h
  · rintro rfl
    exact replaceChar_self '>' gtRepl (by simp [gtRepl]) _ hx

/-- A successful `startsSeg` match means every pattern character occurs in
the scanned list. -/
theorem startsSeg_subset {p l : List Char} (h : startsSeg p l = true) :
    ∀ x ∈ p, x ∈ l := by
  induction p generalizing l with
  | nil => simp
  | cons a asl ih =>
    cases l with
    | nil => simp [startsSeg] at h
    | cons c cs =>
      simp only [startsSeg, Bool.and_eq_true, decide_eq_true_eq] at h
      intro x hx
      rcases List.mem_cons.mp hx with rfl | hx2
      · simp [h.1]
      · exact List.mem_cons_of_mem _ (ih h.2 x hx2)

/-- A successful substring match means every pattern character occurs in
the searched list. -/
theorem segIn_subset {p l : List Char} (h : segIn p l = true) :
    ∀ x ∈ p, x ∈ l := by
  induction l with
  | nil =>
    intro x hx
    simp only [segIn, List.isEmpty_iff] at h
    subst h
    simp at hx
  | cons c cs ih =>
    simp only [segIn, Bool.or_eq_true] at h
    intro x hx
    rcases h with h | h
    · exact startsSeg_subset h x hx
    · exact List.mem_cons_of_mem _ (ih h x hx)

/-- The opening highlight marker never occurs in escaped output: escaped
output has no `<`. -/
theorem segIn_markO_escape (s : Option String) :
    segIn markO (escapeHtml s).toList = false := by
  cases hb : segIn markO (escapeHtml s).toList with
  | false => rfl
  | true =>
    exact absurd rfl
      ((escapeHtml_noAngle s '<' (segIn_subset hb '<' (by decide))).1)

/-- An atom-sequence match splits the scanned list into the matched prefix
and the remaining suffix. -/
theorem atomsMatch_append {asl : List RAtom} {s m r : List Char}
    (h : atomsMatch asl s = some (m, r)) : m ++ r = s := by
  induction asl generalizing s m r with
  | nil =>
    simp only [atomsMatch, Option.some.injEq, Prod.mk.injEq] at h
    simp [← h.1, ← h.2]
  | cons a asl2 ih =>
    cases s with
    | nil => simp [atomsMatch] at h
    | cons c cs =>
      simp only [atomsMatch] at h
      split at h
      · cases hm : atomsMatch asl2 cs with
        | none => rw [hm] at h; simp at h
        | some p =>
          rw [hm] at h
          simp only [Option.map_some', Option.some.injEq, Prod.mk.injEq] at h
          obtain ⟨h1, h2⟩ := h
          subst h1
          subst h2
          simpa using ih hm
      · simp at h

/-- A list with no angle characters is markup-safe. -/
theorem safeOut_of_noAngle {l : List Char}
    (h : ∀ x ∈ l, x ≠ '<' ∧ x ≠ '>') : SafeOut l := by
  induction l with
  | nil => exact SafeOut.nil
  | cons c cs ih =>
    exact SafeOut.plain (h c (by simp)).1 (h c (by simp)).2
      (ih fun x hx => h x (List.mem_cons_of_mem _ hx))

/-- The global wrap-replace over an angle-free input is markup-safe: every
angle character of the output belongs to an inserted marker. -/
theorem safeOut_gReplaceF (a : RAtom) (asl : List RAtom) :
    ∀ (fuel : Nat) (s : List Char),
      (∀ x ∈ s, x ≠ '<' ∧ x ≠ '>') → SafeOut (gReplaceF a asl fuel s) := by
  intro fuel
  induction fuel with
  | zero =>
    intro s h
    cases s with
    | nil => exact SafeOut.nil
    | cons c cs => exact safeOut_of_noAngle h
  | succ fuel ih =>
    intro s h
    cases s with
    | nil => exact SafeOut.nil
    | cons c cs =>
      cases hm : atomsMatch (a :: asl) (c :: cs) with
      | none =>
        have heq : gReplaceF a asl (fuel + 1) (c :: cs) =
            c :: gReplaceF a asl fuel cs := by
          simp [gReplaceF, hm]
        rw [heq]
        exact SafeOut.plain (h c (by simp)).1 (h c (by simp)).2
          (ih cs fun x hx => h x (by simp [hx]))
      | some p =>
        obtain ⟨m, r⟩ := p
        have heq : gReplaceF a asl (fuel + 1) (c :: cs) =
            markO ++ m ++ markC ++ gReplaceF a asl fuel r := by
          simp [gReplaceF, hm]
        rw [heq]
        have hmr := atomsMatch_append hm
        refine SafeOut.wrapped (fun x hx => h x ?_) (ih r fun x hx => h x ?_)
        · rw [← hmr]; exact List.mem_append_left _ hx
        · rw [← hmr]; exact List.mem_append_right _ hx

/-- Whatever the message and keyword, the rendered message cell is
markup-safe: raw `<` and `>` can only come from the inserted markers. -/
theorem highlight_safeOut (text : Option String) (kw : String) :
    SafeOut (highlightText text kw).toList := by
  unfold highlightText
  split
  · exact safeOut_of_noAngle (escapeHtml_noAngle text)
  · cases hp : parseAtoms (jsEscapeKw kw.toList) with
    | none =>
      simp only [hp]
      exact safeOut_of_noAngle (escapeHtml_noAngle text)
    | some atoms =>
      cases atoms with
      | nil =>
        simp only [hp]
        exact safeOut_of_noAngle (escapeHtml_noAngle text)
      | cons a asl =>
        simp only [hp]
        exact safeOut_gReplaceF a asl _ _ (escapeHtml_noAngle text)

/-- Stopping the poll interval leaves the `pollTimer` variable null. -/
theorem stopPoll_pollTimer (s : St) : (stopPoll s).pollTimer = false := by
  cases hp : s.pollTimer <;> simp [stopPoll, hp]

/-- Under the timer invariant, stopping the poll interval leaves zero live
timers. -/
theorem stopPoll_count (s : St) (h : s.timerCount = if s.pollTimer then 1 else 0) :
    (stopPoll s).timerCount = 0 := by
  cases hp : s.pollTimer <;> simp [stopPoll, hp] <;> simp [hp] at h <;> omega

/-- A state whose `websocket` variable is null tracks no open socket. -/
theorem trackedOpenB_of_wsVar_none {s : St} (h : s.wsVar = none) :
    trackedOpenB s = false := by
  unfold trackedOpenB
  rw [h]

/-- Unfolding equation of `_restartPollIfNeeded`. -/
theorem restartPoll_eq (s : St) :
    restartPoll s =
      if ((stopPoll s).wsVar.isNone && (stopPoll s).autoPoll) = true then
        startPoll (stopPoll s)
      else stopPoll s := rfl

/-- `_restartPollIfNeeded` preserves the transport invariant: it only
starts a timer after stopping the previous one, and only when the
`websocket` variable is null. -/
theorem sinv_restartPoll {s : St} (h : SInv s) : SInv (restartPoll s) := by
  obtain ⟨h1, _h2⟩ := h
  rw [restartPoll_eq]
  split
  · next hc =>
    refine ⟨?_, ?_⟩
    · simp [startPoll, stopPoll_count s h1]
    · intro _
      have hw : (startPoll (stopPoll s)).wsVar = none := by
        simp only [Bool.and_eq_true, Option.isNone_iff_eq_none] at hc
        simpa [startPoll] using hc.1
      exact trackedOpenB_of_wsVar_none hw
  · refine ⟨?_, ?_⟩
    · rw [stopPoll_count s h1, stopPoll_pollTimer]
      rfl
    · intro hfalse
      rw [stopPoll_pollTimer] at hfalse
      cases hfalse

/-- `_scheduleReconnect` touches only the attempt counter and the pending
timeout count, hence preserves the transport invariant. -/
theorem sinv_schedIn {s : St} (h : SInv s) : SInv (schedIn s) := by
  unfold schedIn
  cases hsr : scheduleReconnect s.reconnectAttempts with
  | none => exact h
  | some p => exact ⟨h.1, h.2⟩

/-- The close handler's trailing conditional reconnect preserves the
transport invariant. -/
theorem sinv_schedIfAuto {s : St} (h : SInv s) : SInv (schedIfAuto s) := by
  unfold schedIfAuto
  split
  · exact sinv_schedIn h
  · exact h

/-- `connectWebSocket` preserves the transport invariant: the socket it
creates starts in the connecting phase, so pointing the `websocket`
variable at it cannot make a tracked-open socket coexist with a poll
timer. -/
theorem sinv_doConnect {s : St} (ok : Bool) (h : SInv s) : SInv (doConnect ok s) := by
  unfold doConnect
  split
  · exact h
  · split
    · refine ⟨h.1, ?_⟩
      intro _
      simp [trackedOpenB, getSock, List.get?_eq_getElem?, List.getElem?_concat_length]
    · split
      · exact sinv_schedIn h
      · exact h

/-- Any state satisfying the timer-count half of the invariant satisfies
the full invariant after `_stopPoll`. -/
theorem sinv_stopPoll {s : St} (h1 : s.timerCount = if s.pollTimer then 1 else 0) :
    SInv (stopPoll s) := by
  refine ⟨?_, ?_⟩
  · rw [stopPoll_count s h1, stopPoll_pollTimer]
    rfl
  · intro hp
    rw [stopPoll_pollTimer] at hp
    cases hp

/-- The open handler preserves the transport invariant: it ends by
stopping the poll interval. -/
theorem sinv_onOpenEv {s : St} (i : Nat) (k : Sock) (h : SInv s) :
    SInv (onOpenEv s i k) := by
  unfold onOpenEv
  split
  · exact sinv_stopPoll h.1
  · exact h

/-- The close handler preserves the transport invariant: it nulls the
`websocket` variable before (possibly) restarting the poll interval. -/
theorem sinv_onCloseEv {s : St} (i : Nat) (k : Sock) (h : SInv s) :
    SInv (onCloseEv s i k) := by
  unfold onCloseEv
  split
  · exact sinv_schedIfAuto (sinv_restartPoll
      ⟨h.1, fun _ => trackedOpenB_of_wsVar_none rfl⟩)
  · exact h

/-- `disconnectWebSocket` preserves the transport invariant. -/
theorem sinv_onDisconnectEv {s : St} (i : Nat) (h : SInv s) :
    SInv (onDisconnectEv s i) := by
  unfold onDisconnectEv
  cases getSock s i with
  | some k => exact ⟨h.1, fun _ => trackedOpenB_of_wsVar_none rfl⟩
  | none => exact ⟨h.1, fun _ => trackedOpenB_of_wsVar_none rfl⟩

/-- Every event of the transport model preserves the invariant. -/
theorem sinv_step {s : St} (e : Ev) (h : SInv s) : SInv (stepEv e s) := by
  cases e with
  | userConnect ok => exact sinv_doConnect ok h
  | sockOpen i =>
    simp only [stepEv]
    cases getSock s i with
    | some k => exact sinv_onOpenEv i k h
    | none => exact h
  | sockClose i =>
    simp only [stepEv]
    cases getSock s i with
    | some k => exact sinv_onCloseEv i k h
    | none => exact h
  | userDisconnect =>
    simp only [stepEv]
    cases s.wsVar with
    | some i => exact sinv_onDisconnectEv i h
    | none => exact h
  | setAutoPoll b => exact sinv_restartPoll ⟨h.1, h.2⟩
  | pollIntervalChange => exact sinv_restartPoll h
  | setAutoReconnect b => exact ⟨h.1, h.2⟩
  | reconnectFire ok =>
    simp only [stepEv]
    split
    · exact sinv_doConnect ok ⟨h.1, h.2⟩
    · exact h

/-- The invariant is inductive along any event sequence. -/
theorem sinv_run {s : St} (evs : List Ev) (h : SInv s) : SInv (run evs s) := by
  induction evs generalizing s with
  | nil => exact h
  | cons e evs ih => exact ih (sinv_step e h)

/-- The initial page state satisfies the invariant. -/
theorem sinv_init (ap ar : Bool) : SInv (initSt ap ar) := by
  refine ⟨rfl, ?_⟩
  intro _
  exact trackedOpenB_of_wsVar_none rfl

/-- C1 (amended): along every event sequence, at most one poll interval is
live, and whenever the poll timer is active the socket tracked by the
`websocket` variable is not open. The unamendable part of the claim — that
no open socket at all coexists with an active poll timer — is refuted by
`claim1_counterexample`: a delayed close event of a superseded socket
nulls the variable and restarts polling while the newer, orphaned socket
is still open. -/
theorem claim1_amended (evs : List Ev) (ap ar : Bool) :
    (run evs (initSt ap ar)).timerCount ≤ 1 ∧
    ((run evs (initSt ap ar)).pollTimer = true →
      trackedOpenB (run evs (initSt ap ar)) = false) := by
  have h := sinv_run evs (sinv_init ap ar)
  refine ⟨?_, h.2⟩
  rw [h.1]
  split <;> omega

/-- C1 (counterexample): after the concrete event sequence connect, open
socket 0, user-disconnect, connect, open socket 1, delayed close of
socket 0 — with auto-poll enabled — the poll timer is active while socket
1 is open (and untracked), so a live open WebSocket and an active poll
timer coexist, contradicting the claim's mutual-exclusivity statement. -/
theorem claim1_counterexample :
    (run traceStaleClose (initSt true false)).pollTimer = true ∧
    anyOpenB (run traceStaleClose (initSt true false)) = true ∧
    trackedOpenB (run traceStaleClose (initSt true false)) = false := by
  decide

/-- C1 (witness): the amended invariant applied at the empty trace with
auto-poll initially on. -/
theorem claim1_witness :
    (run [] (initSt true false)).timerCount ≤ 1 ∧
    trackedOpenB (run [] (initSt true false)) = false :=
  ⟨(claim1_amended [] true false).1, (claim1_amended [] true false).2 rfl⟩

/-- `schedIn` changes the attempt counter by zero or one. -/
theorem schedIn_attempts (s : St) :
    (schedIn s).reconnectAttempts = s.reconnectAttempts ∨
    (schedIn s).reconnectAttempts = s.reconnectAttempts + 1 := by
  unfold schedIn scheduleReconnect
  by_cases h6 : s.reconnectAttempts ≥ 6
  · simp [h6]
  · simp [h6]

/-- `connectWebSocket` changes the attempt counter by zero or one (the
catch-branch `_scheduleReconnect` increments it). -/
theorem doConnect_attempts (ok : Bool) (s : St) :
    (doConnect ok s).reconnectAttempts = s.reconnectAttempts ∨
    (doConnect ok s).reconnectAttempts = s.reconnectAttempts + 1 := by
  unfold doConnect
  split
  · exact Or.inl rfl
  · split
    · exact Or.inl rfl
    · split
      · exact schedIn_attempts s
      · exact Or.inl rfl

/-- `_restartPollIfNeeded` never touches the attempt counter. -/
theorem restartPoll_attempts (s : St) :
    (restartPoll s).reconnectAttempts = s.reconnectAttempts := by
  simp only [restartPoll, startPoll, stopPoll]
  split_ifs <;> rfl

/-- The close handler's conditional reconnect changes the attempt counter
by zero or one. -/
theorem schedIfAuto_attempts (s : St) :
    (schedIfAuto s).reconnectAttempts = s.reconnectAttempts ∨
    (schedIfAuto s).reconnectAttempts = s.reconnectAttempts + 1 := by
  unfold schedIfAuto
  split
  · exact schedIn_attempts s
  · exact Or.inl rfl

/-- The close handler changes the attempt counter by zero or one. -/
theorem onCloseEv_attempts (s : St) (i : Nat) (k : Sock) :
    (onCloseEv s i k).reconnectAttempts = s.reconnectAttempts ∨
    (onCloseEv s i k).reconnectAttempts = s.reconnectAttempts + 1 := by
  unfold onCloseEv
  split
  · rcases schedIfAuto_attempts (restartPoll
      { setSock s i { k with phase := Phase.closed, closeFired := true } with
        wsVar := none }) with h | h
    · exact Or.inl (h.trans (restartPoll_attempts _))
    · rw [h, restartPoll_attempts]
      exact Or.inr rfl
  · exact Or.inl rfl

/-- `disconnectWebSocket` never touches the attempt counter. -/
theorem onDisconnectEv_attempts (s : St) (i : Nat) :
    (onDisconnectEv s i).reconnectAttempts = s.reconnectAttempts := by
  unfold onDisconnectEv
  cases getSock s i with
  | some k => rfl
  | none => rfl

/-- Any event either is an open event or changes the attempt counter by
zero or one — so no event other than a successful open can zero a nonzero
counter. -/
theorem stepEv_attempts (e : Ev) (s : St) :
    (∃ i, e = Ev.sockOpen i) ∨
    (stepEv e s).reconnectAttempts = s.reconnectAttempts ∨
    (stepEv e s).reconnectAttempts = s.reconnectAttempts + 1 := by
  cases e with
  | userConnect ok => exact Or.inr (doConnect_attempts ok s)
  | sockOpen i => exact Or.inl ⟨i, rfl⟩
  | sockClose i =>
    refine Or.inr ?_
    simp only [stepEv]
    cases getSock s i with
    | none => exact Or.inl rfl
    | some k => exact onCloseEv_attempts s i k
  | userDisconnect =>
    refine Or.inr (Or.inl ?_)
    simp only [stepEv]
    cases s.wsVar with
    | none => rfl
    | some i => exact onDisconnectEv_attempts s i
  | setAutoPoll b => exact Or.inr (Or.inl (restartPoll_attempts _))
  | pollIntervalChange => exact Or.inr (Or.inl (restartPoll_attempts s))
  | setAutoReconnect b => exact Or.inr (Or.inl rfl)
  | reconnectFire ok =>
    refine Or.inr ?_
    simp only [stepEv]
    split
    · exact doConnect_attempts ok _
    · exact Or.inl rfl

/-- C2: the automatic-reconnect backoff. For every counter value below the
cap, `_scheduleReconnect` schedules the next attempt with delay
`min(30000, 500 * 2^n)` where `n` is the new attempt number; six
consecutive failures produce exactly the delays 1000, 2000, 4000, 8000,
16000, 30000 ms and a seventh automatic attempt is never scheduled; and
the only event that can reset a nonzero attempt counter to zero is a
socket-open event (`websocket.onopen`). -/
theorem claim2_backoff :
    (∀ a : Nat, a < 6 →
      scheduleReconnect a = some (a + 1, min 30000 (500 * 2 ^ (a + 1)))) ∧
    consecFailDelays 0 6 = [1000, 2000, 4000, 8000, 16000, 30000] ∧
    consecFailDelays 0 7 = [1000, 2000, 4000, 8000, 16000, 30000] ∧
    scheduleReconnect 6 = none ∧
    (∀ (s : St) (e : Ev), s.reconnectAttempts ≠ 0 →
      (stepEv e s).reconnectAttempts = 0 → ∃ i, e = Ev.sockOpen i) := by
  refine ⟨?_, by decide, by decide, by decide, ?_⟩
  · intro a ha
    unfold scheduleReconnect
    rw [if_neg (by omega)]
  · intro s e h1 h2
    rcases stepEv_attempts e s with h | h | h
    · exact h
    · rw [h] at h2
      exact absurd h2 h1
    · rw [h] at h2
      exact absurd h2 (Nat.succ_ne_zero _)

/-- C2 (witness): the backoff formula applied at attempt counter 3, and
the only-open-resets property applied at a concrete state with counter 3
and the deliverable open event of its connecting socket. -/
theorem claim2_witness :
    scheduleReconnect 3 = some (4, min 30000 (500 * 2 ^ 4)) ∧
    (∃ i, Ev.sockOpen 0 = Ev.sockOpen i) := by
  refine ⟨claim2_backoff.1 3 (by decide), ?_⟩
  exact claim2_backoff.2.2.2.2 stAttemptsThree (Ev.sockOpen 0) (by decide) (by decide)

/-- C3: evaluation of the code at the claim's scenario. With
auto-reconnect enabled, after connect, open, user-initiated
`disconnectWebSocket()` and the resulting close event, the `onclose`
handler has scheduled an automatic reconnect (one pending timeout,
attempt counter 1); when that timeout fires, a new socket is created. The
claim asserts no automatic reconnect is scheduled for a user-initiated
disconnect; the code contains no suppression mechanism. -/
theorem claim3_disconnect_eval :
    (run traceUserDisconnect (initSt false true)).pendingReconnects = 1 ∧
    (run traceUserDisconnect (initSt false true)).reconnectAttempts = 1 ∧
    (run (traceUserDisconnect ++ [Ev.reconnectFire true]) (initSt false true)).wsVar
      = some 1 := by
  decide

/-- C4: after `applyFilter()`, every row in the resulting table is
displayed iff the conjunction of the four predicates (keyword over the
ts-level-message concatenation, level-set membership, inclusive parsed
timestamp range, header search over the message) holds for it — whether or
not a sort column is active (the trailing re-sort only permutes rows). -/
theorem claim4_visibility (dparse : String → Option Int) (fs : FilterSt)
    (ss : SortSt) (rows : List Row) (r : Row)
    (h : r ∈ (applyFilterFull dparse fs ss rows).1) :
    r.display = visRowB dparse fs r := by
  have hmem : r ∈ rows.map (updRow dparse fs) := by
    unfold applyFilterFull at h
    cases hc : ss.col with
    | none =>
      rw [hc] at h
      exact h
    | some c =>
      rw [hc] at h
      exact (List.perm_insertionSort _ _).mem_iff.mp h
  obtain ⟨r0, hr0, heq⟩ := List.mem_map.mp hmem
  subst heq
  rfl

/-- C4 (witness): the spec's end-to-end scenario — rows (ERROR, "disk
full") and (INFO, "ok") with selectedLevels = set containing ERROR and
keyword "disk" — shows exactly the first row; and the visibility
characterization applied to the first updated row. -/
theorem claim4_witness :
    ((applyFilterFull dpNone fsDisk ssNone [rowTsGood, rowOk]).1.map Row.display)
      = [true, false] ∧
    (updRow dpNone fsDisk rowTsGood).display
      = visRowB dpNone fsDisk (updRow dpNone fsDisk rowTsGood) := by
  refine ⟨by decide, ?_⟩
  exact claim4_visibility dpNone fsDisk ssNone [rowTsGood, rowOk] _ (by decide)

/-- C5 (counterexample): the level metadata is not stored unmodified — a
record arriving with level "error" is stored as dataset `rawLevel`
"ERROR" (uppercased), so reading the metadata back does not yield the
original value for the level field. -/
theorem claim5_counterexample :
    recLevelLower.level = some "error" ∧
    (mkRow fsNoFilter "now0" recLevelLower).rawLevel = "ERROR" ∧
    ("ERROR" : String) ≠ "error" := by
  decide

/-- C5 (amended): the row metadata stores the message and the timestamp
unmodified (whenever they arrive non-empty), stores the level uppercased,
and the rendered cells contain no raw `<` or `>` from record content: the
timestamp and level cells are escaped outright, and every angle character
of the message cell belongs to an inserted highlight marker. -/
theorem claim5_metadata (fs : FilterSt) (now : String) (d : LogRec) :
    (∀ m : String, d.msg = some m → m ≠ "" → (mkRow fs now d).rawMsg = m) ∧
    (∀ t : String, d.ts = some t → t ≠ "" → (mkRow fs now d).rawTs = t) ∧
    (mkRow fs now d).rawLevel = upperS (d.level.getD "") ∧
    (∀ x ∈ (mkRow fs now d).tsCell.toList, x ≠ '<' ∧ x ≠ '>') ∧
    (∀ x ∈ (mkRow fs now d).levelCell.toList, x ≠ '<' ∧ x ≠ '>') ∧
    SafeOut (mkRow fs now d).msgCell.toList := by
  refine ⟨?_, ?_, rfl, ?_, ?_, ?_⟩
  · intro m hm hne
    simp [mkRow, hm, jsOr, hne]
  · intro t ht hne
    simp [mkRow, ht, jsOr, hne]
  · exact escapeHtml_noAngle _
  · exact escapeHtml_noAngle _
  · exact highlight_safeOut _ _

/-- C5 (witness): a message containing `<`, `>` and `&` is stored
unmodified in the metadata and its rendered cell is markup-safe. -/
theorem claim5_witness :
    (mkRow fsNoFilter "now0" recAngles).rawMsg = "a<b>&c" ∧
    (mkRow fsNoFilter "now0" recAngles).rawTs = "2024-01-01 10:00:00" ∧
    SafeOut (mkRow fsNoFilter "now0" recAngles).msgCell.toList := by
  refine ⟨?_, ?_, ?_⟩
  · exact (claim5_metadata fsNoFilter "now0" recAngles).1 "a<b>&c" rfl (by decide)
  · exact (claim5_metadata fsNoFilter "now0" recAngles).2.1 "2024-01-01 10:00:00"
      rfl (by decide)
  · exact (claim5_metadata fsNoFilter "now0" recAngles).2.2.2.2.2

/-- C6: evaluation of the code at the claim's own examples. The
keyword-escaping step leaves "." unchanged (its character class is
mis-written, so no regex special is escaped unless followed by the two
characters backslash-bracket), hence keyword "." compiles to the wildcard
pattern `(.)` and wraps every character of the message — not only the
literal dots; and keyword "(" makes the RegExp constructor throw, so
nothing at all is highlighted even though "(" occurs literally in the
message. -/
theorem claim6_highlight_eval :
    jsEscapeKw ['.'] = ['.'] ∧
    highlightText (some "a.b") "." =
      "<mark class=\"log-highlight\">a</mark><mark class=\"log-highlight\">.</mark><mark class=\"log-highlight\">b</mark>" ∧
    highlightText (some "x(y") "(" = "x(y" := by
  decide

/-- C7 (counterexample): with one unparsable-timestamp row placed before a
parsable one, sorting the timestamp column in either direction leaves the
unparsable row first — it does not sort after the rows with parsable
timestamps, contradicting the claim. -/
theorem claim7_counterexample :
    parseTsMs dpFix rowTsBad.rawTs = none ∧
    parseTsMs dpFix rowTsGood.rawTs = some 1704103200000 ∧
    sortRows dpFix SortCol.ts 1 [rowTsBad, rowTsGood] = [rowTsBad, rowTsGood] ∧
    sortRows dpFix SortCol.ts (-1) [rowTsBad, rowTsGood] = [rowTsBad, rowTsGood] := by
  decide

/-- C7 (amended): a row whose stored timestamp fails to parse compares as
equal (comparator result 0, the ECMAScript treatment of a NaN comparator
value) against every row, in both argument orders and for either
direction; the stable sort therefore leaves such rows in their prior
positions relative to their neighbours instead of moving them last. -/
theorem claim7_nan_compares_equal (dparse : String → Option Int) (dir : Int)
    (a b : Row) (h : parseTsMs dparse a.rawTs = none) :
    rowCompare dparse SortCol.ts dir a b = 0 ∧
    rowCompare dparse SortCol.ts dir b a = 0 := by
  constructor
  · unfold rowCompare
    rw [h]
  · unfold rowCompare
    rw [h]
    cases parseTsMs dparse b.rawTs <;> rfl

/-- C7 (witness): the comparator property applied at the concrete
unparsable row. -/
theorem claim7_witness :
    rowCompare dpFix SortCol.ts 1 rowTsBad rowTsGood = 0 ∧
    rowCompare dpFix SortCol.ts 1 rowTsGood rowTsBad = 0 :=
  claim7_nan_compares_equal dpFix 1 rowTsBad rowTsGood (by decide)

/-- Rows appended by a fold over `addLogEntry` end up reversed on top of
the previous rows (each call prepends), and the counter adds the list
length. -/
theorem foldl_addLogEntry (fs : FilterSt) (now : String) :
    ∀ (data : List LogRec) (st0 : TableSt),
      (data.foldl (fun acc d => addLogEntry fs now acc d) st0).rows =
        (data.map (mkRow fs now)).reverse ++ st0.rows ∧
      (data.foldl (fun acc d => addLogEntry fs now acc d) st0).total =
        st0.total + data.length := by
  intro data
  induction data with
  | nil => intro st0; simp
  | cons d ds ih =>
    intro st0
    simp only [List.foldl_cons, List.map_cons, List.reverse_cons, List.length_cons]
    refine ⟨?_, ?_⟩
    · rw [(ih (addLogEntry fs now st0 d)).1]
      simp [addLogEntry]
    · rw [(ih (addLogEntry fs now st0 d)).2]
      simp [addLogEntry]
      omega

/-- C8: on the polling path, a failed HTTP request leaves the table state
(rows, counter, everything) exactly unchanged; a successful array
response first clears the table and then renders the returned records in
array order (each prepended, so the final top-to-bottom order is the
reverse of the array) with the counter equal to the array length; in
particular an empty-array response leaves zero rows and counter 0. -/
theorem claim8_poll_snapshot (fs : FilterSt) (now : String) (st : TableSt)
    (data : List LogRec) :
    handleFetchTail fs now st (Except.error ()) = st ∧
    (handleFetchTail fs now st (Except.ok (some []))).rows = [] ∧
    (handleFetchTail fs now st (Except.ok (some []))).total = 0 ∧
    (handleFetchTail fs now st (Except.ok (some data))).rows =
      (data.map (mkRow fs now)).reverse ∧
    (handleFetchTail fs now st (Except.ok (some data))).total = data.length := by
  refine ⟨rfl, rfl, rfl, ?_, ?_⟩
  · have h := (foldl_addLogEntry fs now data (clearLogTable st)).1
    simpa [handleFetchTail, clearLogTable] using h
  · have h := (foldl_addLogEntry fs now data (clearLogTable st)).2
    simpa [handleFetchTail, clearLogTable] using h

/-- C9 (counterexample): with the viewer paused, `clearLogTable()` resets
the pause/resume buttons to the not-paused arrangement but leaves the
`isPaused` flag set, so a line message arriving right after the clear is
discarded — the table stays empty — contradicting the claim that it would
be rendered. -/
theorem claim9_counterexample :
    pausedViewer.isPaused = true ∧
    (clearViewer pausedViewer).table.pauseDisabled = false ∧
    (clearViewer pausedViewer).table.resumeDisabled = true ∧
    (clearViewer pausedViewer).isPaused = true ∧
    (onWsMessage fsNoFilter "now0" (clearViewer pausedViewer)
      (some lineFrame)).table.rows = [] := by
  decide

/-- C9 (amended): `clearLogTable()` removes all rows, zeroes the counter,
empties the last-update display and resets the pause/resume buttons to
the not-paused arrangement, but it does not touch the `isPaused` flag —
so when the viewer was paused before the call, a line message arriving
immediately afterwards is still discarded without any state change. -/
theorem claim9_clear_and_pause (fs : FilterSt) (now : String) (v : ViewerSt)
    (f : Option WsFrame) :
    (clearViewer v).table.rows = [] ∧
    (clearViewer v).table.total = 0 ∧
    (clearViewer v).table.lastUpdate = none ∧
    (clearViewer v).table.pauseDisabled = false ∧
    (clearViewer v).table.resumeDisabled = true ∧
    (clearViewer v).isPaused = v.isPaused ∧
    (v.isPaused = true → onWsMessage fs now (clearViewer v) f = clearViewer v) := by
  refine ⟨rfl, rfl, rfl, rfl, rfl, rfl, ?_⟩
  intro hp
  simp [onWsMessage, clearViewer, hp]

/-- C9 (witness): the amended clear-and-pause behaviour applied at the
concrete paused viewer. -/
theorem claim9_witness :
    (clearViewer pausedViewer).table.total = 0 ∧
    onWsMessage fsNoFilter "now0" (clearViewer pausedViewer) (some lineFrame) =
      clearViewer pausedViewer := by
  refine ⟨(claim9_clear_and_pause fsNoFilter "now0" pausedViewer
    (some lineFrame)).2.1, ?_⟩
  exact (claim9_clear_and_pause fsNoFilter "now0" pausedViewer
    (some lineFrame)).2.2.2.2.2.2 rfl

/-- C10: `highlightText` is a total function of its two arguments (the
embedding returns a value for every input, mirroring the source's
try/catch which never lets an exception escape). With an empty keyword it
returns exactly the escaped message with no highlight marker anywhere in
the output; when compiling the keyword pattern fails (the RegExp
constructor throws), it falls back to the escaped, unhighlighted message;
and a null/undefined message is treated as the empty string. -/
theorem claim10_highlight_total (text : Option String) (kw : String) :
    (kw = "" →
      highlightText text kw = escapeHtml text ∧
      segIn markO (highlightText text kw).toList = false) ∧
    (parseAtoms (jsEscapeKw kw.toList) = none →
      highlightText text kw = escapeHtml text) ∧
    highlightText none kw = highlightText (some "") kw := by
  refine ⟨?_, ?_, ?_⟩
  · rintro rfl
    exact ⟨rfl, segIn_markO_escape text⟩
  · intro hp
    unfold highlightText
    split
    · rfl
    · rw [hp]
  · rfl

/-- C10 (witness): keyword "(" (construction failure) falls back to the
escaped message, and the empty keyword returns the escaped message with
no marker. -/
theorem claim10_witness :
    highlightText (some "a<b") "(" = "a&lt;b" ∧
    highlightText (some "x&y") "" = "x&amp;y" ∧
    segIn markO (highlightText (some "x&y") "").toList = false := by
  refine ⟨?_, ?_, ?_⟩
  · exact ((claim10_highlight_total (some "a<b") "(").2.1 (by decide)).trans (by decide)
  · exact (((claim10_highlight_total (some "x&y") "").1 rfl).1).trans (by decide)
  · exact ((claim10_highlight_total (some "x&y") "").1 rfl).2

end LogTail
